import Mathlib

/-!
Verification of the spot-tracking / inpainting core of `blur_spots.py`.

Images are embedded as a pair of dimensions plus a total pixel function
(`Img`).  Grayscale/Laplacian preprocessing (`cv2.cvtColor`,
`cv2.Laplacian`) is an external pure collaborator; the embedding therefore
works directly with the already-processed images, quantifying over them.

Python floats that hold spot centers (`last_cx`, `origin_cx`, ...) are
always integer-valued in the source (they are only ever assigned
`float(<int expression>)`), so they are embedded as `ℤ`; the `int(...)`
truncations in the source are then exact and need no rounding model.

Numpy basic slicing `a[y1:y2, x1:x2]` follows Python slice semantics:
a negative bound counts from the end of the axis, and bounds are clamped
into `[0, n]`.  This is embedded faithfully by `pySliceStart`.
-/

/-- A single-channel image: dimensions plus a total pixel function
`pix x y` (x = column, y = row), meaningful for `x < width`, `y < height`. -/
structure Img where
  width : Nat
  height : Nat
  pix : Nat → Nat → Int

/-- Python slice-bound normalization for an axis of length `n`:
a negative index counts from the end; the result is clamped into `[0, n]`. -/
def pySliceStart (n : Nat) (i : Int) : Nat :=
  if i < 0 then (max 0 ((n : Int) + i)).toNat else (min i (n : Int)).toNat

/-- Embedding of `img[y1:y2, x1:x2]` (numpy basic slicing, step 1). -/
def Img.slice2d (img : Img) (y1 y2 x1 x2 : Int) : Img :=
  let ys := pySliceStart img.height y1
  let ye := pySliceStart img.height y2
  let xs := pySliceStart img.width x1
  let xe := pySliceStart img.width x2
  ⟨xe - xs, ye - ys, fun x y => img.pix (xs + x) (ys + y)⟩

/-- A spot definition from the JSON file: `{"x": .., "y": .., "radius": ..}`
(after the `int(...)` coercions at the top of `build_spot_templates`). -/
structure SpotDef where
  x : Int
  y : Int
  radius : Int

/-- One tracked spot: the per-spot dict built by `build_spot_templates`. -/
structure SpotTrack where
  radius : Int
  template : Img
  templ_w : Nat
  templ_h : Nat
  origin_cx : Int
  origin_cy : Int
  last_cx : Int
  last_cy : Int
  alive : Bool

instance : Inhabited SpotTrack :=
  ⟨{ radius := 0, template := ⟨0, 0, fun _ _ => 0⟩, templ_w := 0, templ_h := 0,
     origin_cx := 0, origin_cy := 0, last_cx := 0, last_cy := 0, alive := false }⟩

/-- The per-spot body of the loop in `build_spot_templates`
(`blur_spots.py` lines 51-85): build the clipped template around the
definition's center and either discard the spot (empty template) or
produce the initial track record.  `gray_ref_proc` is the edge-transformed
grayscale reference frame. -/
def build_one (gray_ref_proc : Img) (width height : Int) (s : SpotDef) : Option SpotTrack :=
  let cx0 := s.x
  let cy0 := s.y
  let r := s.radius
  let half_size := r + 4
  let x1 := max 0 (cx0 - half_size)
  let y1 := max 0 (cy0 - half_size)
  let x2 := min width (cx0 + half_size)
  let y2 := min height (cy0 + half_size)
  let templ_proc := gray_ref_proc.slice2d y1 y2 x1 x2
  if templ_proc.width * templ_proc.height = 0 then
    none
  else
    some { radius := r, template := templ_proc,
           templ_w := templ_proc.width, templ_h := templ_proc.height,
           origin_cx := cx0, origin_cy := cy0,
           last_cx := cx0, last_cy := cy0, alive := true }

/-- `build_spot_templates` (lines 27-87): the surviving tracks, in input
order.  The non-fatal warning printed for a discarded spot is I/O and has
no state effect. -/
def build_spot_templates (gray_ref_proc : Img) (spots : List SpotDef)
    (width height : Int) : List SpotTrack :=
  spots.filterMap (build_one gray_ref_proc width height)

/-! ### Template matching (external collaborator)

Modelled from the spec: `cv2.matchTemplate(roi, templ, TM_CCOEFF_NORMED)`
followed by `cv2.minMaxLoc` — "Run normalized cross-correlation template
matching of the track's template against the ROI; obtain the best match
score and its top-left offset within the ROI".  The score at offset
`(u,v)` is `Σ T' W' / √(Σ T'² · Σ W'²)` where `T'`/`W'` are the template /
window with their means subtracted.  Scaling by `n = tw·th` keeps all
quantities integral: the score equals `a / √(dT · dW)` with
`a = Σ A·B`, `dT = Σ A²`, `dW = Σ B²`, `A = n·T - ΣT`, `B = n·W - ΣW`.
A degenerate (constant) template or window makes the denominator zero;
the score is then 0, matching the collaborator's guarded behavior.
`minMaxLoc` returns the first maximum in row-major scan order. -/

/-- A match score `num / √den` with `den > 0` (degenerate cases are
normalized to `⟨0, 1⟩`). -/
structure Score where
  num : Int
  den : Int

/-- `Σ_{k < n} f k` by structural recursion (kernel-evaluable). -/
def sumN (f : Nat → Int) : Nat → Int
  | 0 => 0
  | n + 1 => sumN f n + f n

/-- Sum of `f x y` over the rectangle `x < w`, `y < h`. -/
def sumRect (f : Nat → Nat → Int) (w h : Nat) : Int :=
  sumN (fun y => sumN (fun x => f x y) w) h

/-- The TM_CCOEFF_NORMED score of `templ` against the window of `roi` whose
top-left corner is `(u, v)`, in the sqrt-free representation. -/
def scoreAt (roi templ : Img) (u v : Nat) : Score :=
  let tw := templ.width
  let th := templ.height
  let n : Int := (tw : Int) * (th : Int)
  let sT := sumRect templ.pix tw th
  let sW := sumRect (fun x y => roi.pix (u + x) (v + y)) tw th
  let a := sumRect
    (fun x y => (n * templ.pix x y - sT) * (n * roi.pix (u + x) (v + y) - sW)) tw th
  let dT := sumRect (fun x y => (n * templ.pix x y - sT) ^ 2) tw th
  let dW := sumRect (fun x y => (n * roi.pix (u + x) (v + y) - sW) ^ 2) tw th
  if dT = 0 ∨ dW = 0 then ⟨0, 1⟩ else ⟨a, dT * dW⟩

/-- Exact comparison `s > t` of two scores `s.num/√s.den`, `t.num/√t.den`
(valid for positive denominators): using the strictly monotone map
`x ↦ x·|x|`, the inequality is equivalent to
`s.num·|s.num|·t.den > t.num·|t.num|·s.den`. -/
def scoreGt (s t : Score) : Bool :=
  decide (s.num * |s.num| * t.den > t.num * |t.num| * s.den)

/-- Exact comparison `s < q` of a score against a rational threshold:
`num/√den < q.num/q.den ⟺ (num·q.den)·|num·q.den| < q.num·|q.num|·den`. -/
def scoreLtQ (s : Score) (q : Rat) : Bool :=
  decide ((s.num * (q.den : Int)) * |s.num * (q.den : Int)| <
    q.num * |q.num| * s.den)

/-- All candidate offsets `(u, v)`, `u < uN`, `v < vN`, in minMaxLoc's
row-major scan order. -/
def scanLocs (uN vN : Nat) : List (Nat × Nat) :=
  (List.range vN).flatMap fun v => (List.range uN).map fun u => (u, v)

/-- Best score and its offset: first maximum in scan order (ties keep the
earlier location, as `cv2.minMaxLoc` does). -/
def matchBest (roi templ : Img) : Score × Nat × Nat :=
  let uN := roi.width - templ.width + 1
  let vN := roi.height - templ.height + 1
  (scanLocs uN vN).foldl
    (fun best uv =>
      let s := scoreAt roi templ uv.1 uv.2
      if scoreGt s best.1 then (s, uv.1, uv.2) else best)
    (scoreAt roi templ 0 0, 0, 0)

/-! ### The per-frame tracker step -/

/-- An axis-aligned integer rectangle `[x1, x2) × [y1, y2)`. -/
structure Rect where
  x1 : Int
  y1 : Int
  x2 : Int
  y2 : Int

/-- The search region around the previous center before clipping
(`blur_spots.py` lines 119-126): center ± (template half-size + max_shift),
with `half_w = templ_w // 2`, `half_h = templ_h // 2`. -/
def search_region_raw (spot : SpotTrack) (max_shift : Int) : Rect :=
  let half_w : Int := (spot.templ_w : Int) / 2
  let half_h : Int := (spot.templ_h : Int) / 2
  ⟨spot.last_cx - half_w - max_shift,
   spot.last_cy - half_h - max_shift,
   spot.last_cx + half_w + max_shift,
   spot.last_cy + half_h + max_shift⟩

/-- Lines 128-131: clip the raw region's corners with `max 0` / `min dim`.
(Note this does not force `x2, y2 ≥ 0`.) -/
def clipRect (r : Rect) (width height : Int) : Rect :=
  ⟨max 0 r.x1, max 0 r.y1, min width r.x2, min height r.y2⟩

/-- Line 133: extract the ROI by numpy slicing with the clipped corners. -/
def search_roi (spot : SpotTrack) (img : Img) (width height max_shift : Int) : Img :=
  let rc := clipRect (search_region_raw spot max_shift) width height
  img.slice2d rc.y1 rc.y2 rc.x1 rc.x2

/-- `track_spot_on_frame` (lines 90-170).  Returns the updated track; the
Python function mutates the dict in place, which is the same state change.
The global-drift kill block (lines 155-166) is commented out in the source
and therefore absent here. -/
def track_spot_on_frame (spot : SpotTrack) (gray_frame_proc : Img)
    (width height max_shift : Int) (match_threshold : Rat) : SpotTrack :=
  if spot.alive = false then spot
  else
    let rc := clipRect (search_region_raw spot max_shift) width height
    let roi := search_roi spot gray_frame_proc width height max_shift
    if roi.height < spot.templ_h ∨ roi.width < spot.templ_w then spot
    else
      let mr := matchBest roi spot.template
      if scoreLtQ mr.1 match_threshold then spot
      else
        let half_w : Int := (spot.templ_w : Int) / 2
        let half_h : Int := (spot.templ_h : Int) / 2
        let cx_new := rc.x1 + (mr.2.1 : Int) + half_w
        let cy_new := rc.y1 + (mr.2.2 : Int) + half_h
        let cx_new := max 0 (min cx_new (width - 1))
        let cy_new := max 0 (min cy_new (height - 1))
        { spot with last_cx := cx_new, last_cy := cy_new }

/-- One iteration of the per-frame loop body over the track list
(lines 317-328).  The source skips dead tracks before the call; since
`track_spot_on_frame` returns a dead track unchanged, mapping it over all
tracks is the same state transformation. -/
def process_frame (tracks : List SpotTrack) (gray_proc : Img)
    (width height max_shift : Int) (match_threshold : Rat) : List SpotTrack :=
  tracks.map fun t => track_spot_on_frame t gray_proc width height max_shift match_threshold

/-- The tracker state after processing a list of (edge-transformed) frames
in order. -/
def track_run (tracks0 : List SpotTrack) (frames : List Img)
    (width height max_shift : Int) (match_threshold : Rat) : List SpotTrack :=
  frames.foldl (fun ts f => process_frame ts f width height max_shift match_threshold) tracks0

/-! ### Darkening of the inpainted region (`blur_spots.py` lines 352-356) -/

/-- `np.clip(x, lo, hi)`. -/
def np_clip (x lo hi : Rat) : Rat := min (max x lo) hi

/-- The darkening block:
`region = out[mask == 255].astype(np.float32); region *= darken;`
`out[mask == 255] = np.clip(region, 0, 255).astype(np.uint8)`.
The `astype(np.uint8)` cast truncates toward zero; on the clipped
(nonnegative) range that is the floor.  The float32 multiply is modelled
with exact rational arithmetic. -/
def apply_darken (out mask : Img) (darken : Rat) : Img :=
  ⟨out.width, out.height, fun x y =>
    if mask.pix x y = 255 then ⌊np_clip ((out.pix x y : Rat) * darken) 0 255⌋
    else out.pix x y⟩

/-- Line 352: the darkening is applied only when `args.darken < 1.0`. -/
def darken_step (inpainted mask : Img) (darken : Rat) : Img :=
  if darken < 1 then apply_darken inpainted mask darken else inpainted

/-! ### Pipeline outcome (`main`, lines 237-298)

The video collaborator (`cv2.VideoCapture` / `VideoWriter`) is abstracted
by oracles: whether the stream opened, its reported dimensions, whether
the reference frame could be read, and the list of decoded frames.  The
`VideoWriter` is created only after the nothing-to-do check, so the
`nothingToDo` outcome writes no frames. -/

/-- Terminal state of `main`. -/
inductive RunOutcome where
  | openError : RunOutcome
  | resolutionError : RunOutcome
  | refReadError : RunOutcome
  | nothingToDo : RunOutcome
  | completed : Nat → RunOutcome

/-- Output frames written in a terminal state: one per processed frame in
a completed run, none otherwise. -/
def framesWritten : RunOutcome → Nat
  | .completed n => n
  | _ => 0

/-- The fatal-check / build / loop control flow of `main`
(lines 249-298, with the per-frame loop writing one frame per input
frame). -/
def main_run (openOk : Bool) (vidW vidH jsonW jsonH : Int) (refOk : Bool)
    (refProc : Img) (spots : List SpotDef) (frames : List Img) : RunOutcome :=
  if openOk = false then .openError
  else if vidW ≠ jsonW ∨ vidH ≠ jsonH then .resolutionError
  else if refOk = false then .refReadError
  else if (build_spot_templates refProc spots vidW vidH).isEmpty then .nothingToDo
  else .completed frames.length

/-! ### Concrete instances used in counterexamples and witnesses -/

/-- The rational 1/2 written with explicit fields so that `decide` can
evaluate `num`/`den` projections (the default threshold 0.5). -/
def halfQ : Rat := ⟨1, 2, by omega, Nat.coprime_one_left 2⟩

/-- An 8×12 reference image with non-constant texture. -/
def refImgA : Img := ⟨8, 12, fun x y => ((x * 5 + y * 3 : Int) % 7)⟩

/-- A 4×4 reference image with non-constant columns. -/
def refImgB : Img := ⟨4, 4, fun x y => (x : Int) + 2 * y⟩

/-- A constant 4×4 frame (every match window is degenerate). -/
def constImgB : Img := ⟨4, 4, fun _ _ => 0⟩

/-- An 8×4 image. -/
def img84 : Img := ⟨8, 4, fun x y => (x : Int) * y⟩

/-- A 100×100 image. -/
def img100 : Img := ⟨100, 100, fun x y => (x : Int) + y⟩

/-- A 12×12 image with a single bright pixel at (6,6). -/
def img12 : Img := ⟨12, 12, fun x y => if x = 6 ∧ y = 6 then 100 else 0⟩

/-- The track built from the interior spot (6,6,r=1) on `img12`
(its 10×10 template is not clipped). -/
def t12 : SpotTrack := (build_one img12 12 12 ⟨6, 6, 1⟩).getD default

/-- The track built from the spot (-3,2,r=1) on `refImgB`: its definition
center lies left of the frame, yet the clipped template is non-empty. -/
def tB : SpotTrack := (build_one refImgB 4 4 ⟨-3, 2, 1⟩).getD default

/-- A 1×1 inpainted frame whose only channel value is 5. -/
def imgFive : Img := ⟨1, 1, fun _ _ => 5⟩

/-- A 1×1 mask that is set (255) everywhere. -/
def mask255 : Img := ⟨1, 1, fun _ _ => 255⟩

/-- Decidable in-bounds check for a track center:
`lastCenter ∈ [0, width-1] × [0, height-1]`. -/
def inBoundsB (t : SpotTrack) (w h : Int) : Bool :=
  decide (0 ≤ t.last_cx ∧ t.last_cx ≤ w - 1 ∧ 0 ≤ t.last_cy ∧ t.last_cy ≤ h - 1)

/-! ## Helper lemmas -/

set_option maxRecDepth 200000

lemma track_spot_cases (spot : SpotTrack) (f : Img) (w h ms : Int) (th : Rat) :
    track_spot_on_frame spot f w h ms th = spot ∨
    ∃ cx cy, track_spot_on_frame spot f w h ms th =
      { spot with last_cx := cx, last_cy := cy } := by
  unfold track_spot_on_frame
  dsimp only
  split
  · exact Or.inl rfl
  · split
    · exact Or.inl rfl
    · split
      · exact Or.inl rfl
      · exact Or.inr ⟨_, _, rfl⟩

lemma track_spot_hold (spot : SpotTrack) (f : Img) (w h ms : Int) (th : Rat)
    (hcond : (search_roi spot f w h ms).height < spot.templ_h ∨
      (search_roi spot f w h ms).width < spot.templ_w ∨
      scoreLtQ (matchBest (search_roi spot f w h ms) spot.template).1 th = true) :
    track_spot_on_frame spot f w h ms th = spot := by
  unfold track_spot_on_frame
  dsimp only
  split
  · rfl
  · split
    · rfl
    · split
      · rfl
      · rename_i halive hroi hscore
        rcases hcond with h | h | h
        · exact absurd (Or.inl h) hroi
        · exact absurd (Or.inr h) hroi
        · exact absurd h (by simpa using hscore)

lemma track_spot_alive (spot : SpotTrack) (f : Img) (w h ms : Int) (th : Rat) :
    (track_spot_on_frame spot f w h ms th).alive = spot.alive := by
  rcases track_spot_cases spot f w h ms th with hc | ⟨cx, cy, hc⟩ <;> rw [hc]

lemma build_one_inits {img : Img} {w h : Int} {s : SpotDef} {t : SpotTrack}
    (ht : build_one img w h s = some t) :
    t.radius = s.radius ∧ t.origin_cx = s.x ∧ t.origin_cy = s.y ∧
    t.last_cx = s.x ∧ t.last_cy = s.y ∧ t.alive = true ∧
    t.templ_w = t.template.width ∧ t.templ_h = t.template.height := by
  unfold build_one at ht
  dsimp only at ht
  split at ht
  · exact absurd ht (by simp)
  · injection ht with ht
    subst ht
    exact ⟨rfl, rfl, rfl, rfl, rfl, rfl, rfl, rfl⟩

lemma mem_build {img : Img} {spots : List SpotDef} {w h : Int} {t : SpotTrack}
    (ht : t ∈ build_spot_templates img spots w h) :
    ∃ s ∈ spots, build_one img w h s = some t := by
  simpa [build_spot_templates] using ht

lemma track_run_all_alive (tracks0 : List SpotTrack) (frames : List Img)
    (w h ms : Int) (th : Rat) (h0 : tracks0.all (fun t => t.alive) = true) :
    (track_run tracks0 frames w h ms th).all (fun t => t.alive) = true := by
  induction frames generalizing tracks0 with
  | nil => exact h0
  | cons f fs ih =>
      apply ih
      simp only [process_frame, List.all_map, List.all_eq_true] at h0 ⊢
      intro t ht
      simp only [Function.comp_apply, track_spot_alive]
      exact h0 t ht

lemma foldBest_loc (roi templ : Img) (l : List (Nat × Nat))
    (init : Score × Nat × Nat) (uN vN : Nat)
    (hl : ∀ p ∈ l, p.1 < uN ∧ p.2 < vN) (hi : init.2.1 < uN ∧ init.2.2 < vN) :
    ((l.foldl (fun best uv =>
        let s := scoreAt roi templ uv.1 uv.2
        if scoreGt s best.1 then (s, uv.1, uv.2) else best) init).2.1 < uN ∧
     (l.foldl (fun best uv =>
        let s := scoreAt roi templ uv.1 uv.2
        if scoreGt s best.1 then (s, uv.1, uv.2) else best) init).2.2 < vN) := by
  induction l generalizing init with
  | nil => exact hi
  | cons p ps ih =>
      apply ih
      · intro q hq
        exact hl q (List.mem_cons_of_mem _ hq)
      · dsimp only
        split
        · exact hl p (List.mem_cons_self _ _)
        · exact hi

lemma matchBest_loc (roi templ : Img) :
    (matchBest roi templ).2.1 < roi.width - templ.width + 1 ∧
    (matchBest roi templ).2.2 < roi.height - templ.height + 1 := by
  unfold matchBest
  dsimp only
  apply foldBest_loc
  · intro p hp
    unfold scanLocs at hp
    simp only [List.mem_flatMap, List.mem_map, List.mem_range] at hp
    obtain ⟨v, hv, u, hu, rfl⟩ := hp
    exact ⟨hu, hv⟩
  · exact ⟨Nat.succ_pos _, Nat.succ_pos _⟩

/-! ## Claim theorems -/

/-- C3: for every tracker invocation, if the clipped search region is
smaller than the template in either dimension, or the best match score is
below `matchThreshold`, the call returns with the track completely
unchanged (hold), and — the embedding being a total function whose other
branch is also defined for all inputs — no degenerate case is an error. -/
theorem tracker_hold_atomic (spot : SpotTrack) (f : Img) (w h ms : Int) (th : Rat)
    (hcond : (search_roi spot f w h ms).height < spot.templ_h ∨
      (search_roi spot f w h ms).width < spot.templ_w ∨
      scoreLtQ (matchBest (search_roi spot f w h ms) spot.template).1 th = true) :
    track_spot_on_frame spot f w h ms th = spot :=
  track_spot_hold spot f w h ms th hcond

/-- Witness for C3: the track built from spot (-3,2,1) on `refImgB`, run
against a constant frame (every window degenerate, so the best score 0 is
below the threshold 1/2): the call holds and returns the track unchanged. -/
theorem tracker_hold_atomic_witness :
    track_spot_on_frame tB constImgB 4 4 6 halfQ = tB :=
  tracker_hold_atomic tB constImgB 4 4 6 halfQ (by decide)

/-- C4 (amended): the pre-clip search region is centered on `lastCenter`
and has width `2*(templateWidth/2) + 2*maxShift` (and the corresponding
height); this equals `templateWidth + 2*maxShift` exactly when the
template dimension is even (always true for an unclipped template, whose
size is `2*(radius+4)`, but false for clipped templates of odd size). -/
theorem search_region_dims (spot : SpotTrack) (ms : Int) :
    ((search_region_raw spot ms).x2 - (search_region_raw spot ms).x1 =
       2 * ((spot.templ_w : Int) / 2) + 2 * ms) ∧
    ((search_region_raw spot ms).y2 - (search_region_raw spot ms).y1 =
       2 * ((spot.templ_h : Int) / 2) + 2 * ms) ∧
    ((search_region_raw spot ms).x1 + (search_region_raw spot ms).x2 =
       2 * spot.last_cx) ∧
    ((search_region_raw spot ms).y1 + (search_region_raw spot ms).y2 =
       2 * spot.last_cy) ∧
    (spot.templ_w % 2 = 0 →
      (search_region_raw spot ms).x2 - (search_region_raw spot ms).x1 =
        (spot.templ_w : Int) + 2 * ms) ∧
    (spot.templ_h % 2 = 0 →
      (search_region_raw spot ms).y2 - (search_region_raw spot ms).y1 =
        (spot.templ_h : Int) + 2 * ms) := by
  unfold search_region_raw
  dsimp only
  refine ⟨by omega, by omega, by omega, by omega, fun he => by omega, fun he => by omega⟩

/-- Witness for C4: for the even (10-wide) template of `t12` and
`maxShift = 6` the raw search region width is exactly `templ_w + 12`. -/
theorem search_region_dims_witness :
    (search_region_raw t12 6).x2 - (search_region_raw t12 6).x1 =
      (t12.templ_w : Int) + 2 * 6 :=
  (search_region_dims t12 6).2.2.2.2.1 (by decide)

/-- Counterexample for C4 as stated: the spot (1,50,r=2) on a 100×100
frame builds a clipped template of odd width 7, and the raw search region
width with `maxShift = 6` is 18, not `7 + 2*6 = 19`. -/
theorem search_region_dims_cex :
    ((build_one img100 100 100 ⟨1, 50, 2⟩).map (fun t =>
       ((search_region_raw t 6).x2 - (search_region_raw t 6).x1, t.templ_w)) =
      some (18, 7)) ∧ (18 : Int) ≠ 7 + 2 * 6 := by
  exact ⟨by decide, by decide⟩

/-- C7: the tracker step never changes the `alive` flag (the global-drift
kill block is commented out in the source), so `alive` is trivially
monotone non-increasing, and every track that survives template building
stays alive through any whole run. -/
theorem alive_monotone_inert :
    (∀ (spot : SpotTrack) (f : Img) (w h ms : Int) (th : Rat),
       (track_spot_on_frame spot f w h ms th).alive = spot.alive) ∧
    (∀ (img : Img) (spots : List SpotDef) (w h ms : Int) (th : Rat)
       (frames : List Img),
       (track_run (build_spot_templates img spots w h) frames w h ms th).all
         (fun t => t.alive) = true) := by
  constructor
  · exact track_spot_alive
  · intro img spots w h ms th frames
    apply track_run_all_alive
    simp only [List.all_eq_true]
    intro t ht
    obtain ⟨s, _, hbs⟩ := mem_build ht
    exact (build_one_inits hbs).2.2.2.2.2.1

/-- C10: a tracker invocation can change only `last_cx` and `last_cy`:
all other fields of the given track are returned unchanged, and in the
per-frame pass each position of the track list depends only on the track
at that position. -/
theorem tracker_frame_effect :
    (∀ (spot : SpotTrack) (f : Img) (w h ms : Int) (th : Rat),
       (track_spot_on_frame spot f w h ms th).radius = spot.radius ∧
       (track_spot_on_frame spot f w h ms th).template = spot.template ∧
       (track_spot_on_frame spot f w h ms th).templ_w = spot.templ_w ∧
       (track_spot_on_frame spot f w h ms th).templ_h = spot.templ_h ∧
       (track_spot_on_frame spot f w h ms th).origin_cx = spot.origin_cx ∧
       (track_spot_on_frame spot f w h ms th).origin_cy = spot.origin_cy ∧
       (track_spot_on_frame spot f w h ms th).alive = spot.alive) ∧
    (∀ (f : Img) (w h ms : Int) (th : Rat) (tracks : List SpotTrack) (i : Nat),
       (process_frame tracks f w h ms th)[i]? =
         tracks[i]?.map (fun t => track_spot_on_frame t f w h ms th)) := by
  constructor
  · intro spot f w h ms th
    rcases track_spot_cases spot f w h ms th with hc | ⟨cx, cy, hc⟩ <;>
      rw [hc] <;> exact ⟨rfl, rfl, rfl, rfl, rfl, rfl, rfl⟩
  · intro f w h ms th tracks i
    simp [process_frame]

lemma track_spot_accept_form (spot : SpotTrack) (f : Img) (w h ms : Int) (th : Rat) :
    track_spot_on_frame spot f w h ms th = spot ∨
    ∃ cx cy, track_spot_on_frame spot f w h ms th =
      { spot with last_cx := max 0 (min cx (w - 1)),
                  last_cy := max 0 (min cy (h - 1)) } := by
  unfold track_spot_on_frame
  dsimp only
  split
  · exact Or.inl rfl
  · split
    · exact Or.inl rfl
    · split
      · exact Or.inl rfl
      · exact Or.inr ⟨_, _, rfl⟩

lemma track_spot_inBounds (spot : SpotTrack) (f : Img) (w h ms : Int) (th : Rat)
    (hw : 1 ≤ w) (hh : 1 ≤ h) (hb : inBoundsB spot w h = true) :
    inBoundsB (track_spot_on_frame spot f w h ms th) w h = true := by
  rcases track_spot_accept_form spot f w h ms th with hc | ⟨cx, cy, hc⟩
  · rw [hc]; exact hb
  · rw [hc]
    simp only [inBoundsB, decide_eq_true_eq]
    omega

lemma track_run_inBounds (tracks0 : List SpotTrack) (frames : List Img)
    (w h ms : Int) (th : Rat) (hw : 1 ≤ w) (hh : 1 ≤ h)
    (h0 : tracks0.all (fun t => inBoundsB t w h) = true) :
    (track_run tracks0 frames w h ms th).all (fun t => inBoundsB t w h) = true := by
  induction frames generalizing tracks0 with
  | nil => exact h0
  | cons f fs ih =>
      apply ih
      simp only [process_frame, List.all_map, List.all_eq_true,
        Function.comp_apply] at h0 ⊢
      intro t ht
      exact track_spot_inBounds t f w h ms th hw hh (h0 t ht)

/-- C2 (amended): on a non-degenerate frame, every track built from a spot
definition whose center lies within frame bounds keeps
`lastCenter ∈ [0, width-1] × [0, height-1]` after every per-frame update
of any run — holds preserve the center and accepted matches clamp it.
(The claim's "regardless of where the spot definition placed the initial
center" is dropped: an out-of-frame definition can survive building and
then hold its out-of-bounds center, see the counterexample.) -/
theorem bounds_invariant_in_frame_defs (img : Img) (spots : List SpotDef)
    (w h ms : Int) (th : Rat) (hw : 1 ≤ w) (hh : 1 ≤ h)
    (hs : ∀ s ∈ spots, 0 ≤ s.x ∧ s.x ≤ w - 1 ∧ 0 ≤ s.y ∧ s.y ≤ h - 1) :
    ∀ frames : List Img,
      ((track_run (build_spot_templates img spots w h) frames w h ms th).all
        (fun t => inBoundsB t w h)) = true := by
  intro frames
  apply track_run_inBounds _ _ _ _ _ _ hw hh
  simp only [List.all_eq_true]
  intro t ht
  obtain ⟨s, hsmem, hbs⟩ := mem_build ht
  obtain ⟨-, -, -, h4, h5, -, -, -⟩ := build_one_inits hbs
  simp only [inBoundsB, decide_eq_true_eq]
  have := hs s hsmem
  omega

/-- Witness for C2: the interior spot (6,6,1) on the 12×12 frame stays in
bounds across a one-frame run. -/
theorem bounds_invariant_witness :
    ((track_run (build_spot_templates img12 [⟨6, 6, 1⟩] 12 12) [img12]
        12 12 1 halfQ).all (fun t => inBoundsB t 12 12)) = true :=
  bounds_invariant_in_frame_defs img12 [⟨6, 6, 1⟩] 12 12 1 halfQ
    (by decide) (by decide) (by decide) [img12]

/-- Counterexample for C2 as stated: the spot defined at (-3,2) with
radius 1 survives template building on a 4×4 frame (its clipped template
is 2×4), and after the first frame's update against a constant frame
(weak match ⇒ hold) the still-alive track has `last_cx = -3 ∉ [0, 3]`. -/
theorem bounds_invariant_cex :
    ((process_frame (build_spot_templates refImgB [⟨-3, 2, 1⟩] 4 4)
        constImgB 4 4 6 halfQ).map (fun t => (t.last_cx, t.alive)) =
      [(-3, true)]) ∧ ¬ (0 ≤ (-3 : Int)) :=
  ⟨by decide, by decide⟩

/-- C6: if the spot list is non-empty but template building discards every
definition, `main` reports "nothing to do" and terminates cleanly: the
outcome is `nothingToDo` (not an error state) and no output frame is
written (the writer is created only after this check). -/
theorem nothing_to_do_clean (openOk : Bool) (vidW vidH jsonW jsonH : Int)
    (refOk : Bool) (refProc : Img) (spots : List SpotDef) (frames : List Img)
    (h1 : openOk = true) (h2 : vidW = jsonW) (h3 : vidH = jsonH)
    (h4 : refOk = true) (_h5 : spots ≠ [])
    (h6 : (build_spot_templates refProc spots vidW vidH).isEmpty = true) :
    main_run openOk vidW vidH jsonW jsonH refOk refProc spots frames =
      RunOutcome.nothingToDo ∧
    framesWritten (main_run openOk vidW vidH jsonW jsonH refOk refProc spots frames) = 0 := by
  subst h1 h2 h3 h4
  unfold main_run
  rw [if_neg (by simp), if_neg (by simp), if_neg (by simp), if_pos h6]
  exact ⟨rfl, rfl⟩

/-- Witness for C6: the single spot (-100,-100,1) is entirely outside the
8×4 frame, so building discards it; the run ends in `nothingToDo` with
zero frames written. -/
theorem nothing_to_do_clean_witness :
    main_run true 8 4 8 4 true img84 [⟨-100, -100, 1⟩] [] =
      RunOutcome.nothingToDo ∧
    framesWritten (main_run true 8 4 8 4 true img84 [⟨-100, -100, 1⟩] []) = 0 :=
  nothing_to_do_clean true 8 4 8 4 true img84 [⟨-100, -100, 1⟩] []
    rfl rfl rfl rfl (by simp) (by decide)

/-- C8 (amended): when `darken < 1` the masked channels of the written
frame equal `⌊clip(v·darken, 0, 255)⌋` — the inpainted value scaled by
`darken`, clamped, and truncated to an integer by the `uint8` store — so
each masked channel is at most `v·darken` (for `darken = 1/2`, at most
half the inpainted intensity), never negative, never above 255; channels
outside the mask are unchanged by the darkening step. -/
theorem darken_semantics (inp mask : Img) (d : Rat) (x y : Nat)
    (hd1 : d < 1) (hd0 : 0 ≤ d) (hv0 : 0 ≤ inp.pix x y) :
    (mask.pix x y = 255 →
       (darken_step inp mask d).pix x y =
         ⌊np_clip ((inp.pix x y : Rat) * d) 0 255⌋ ∧
       0 ≤ (darken_step inp mask d).pix x y ∧
       (darken_step inp mask d).pix x y ≤ 255 ∧
       ((darken_step inp mask d).pix x y : Rat) ≤ (inp.pix x y : Rat) * d) ∧
    (mask.pix x y ≠ 255 → (darken_step inp mask d).pix x y = inp.pix x y) := by
  have hstep : darken_step inp mask d = apply_darken inp mask d := by
    unfold darken_step
    rw [if_pos hd1]
  constructor
  · intro hm
    have hpix : (darken_step inp mask d).pix x y =
        ⌊np_clip ((inp.pix x y : Rat) * d) 0 255⌋ := by
      rw [hstep]
      unfold apply_darken
      dsimp only
      rw [if_pos hm]
    have hclip0 : (0 : Rat) ≤ np_clip ((inp.pix x y : Rat) * d) 0 255 :=
      le_min (le_max_right _ _) (by norm_num)
    have hclip255 : np_clip ((inp.pix x y : Rat) * d) 0 255 ≤ 255 :=
      min_le_right _ _
    have hclipmul : np_clip ((inp.pix x y : Rat) * d) 0 255 ≤ (inp.pix x y : Rat) * d := by
      unfold np_clip
      rw [max_eq_left (mul_nonneg (by exact_mod_cast hv0) hd0)]
      exact min_le_left _ _
    refine ⟨hpix, ?_, ?_, ?_⟩
    · rw [hpix]
      exact Int.le_floor.mpr (by simpa using hclip0)
    · rw [hpix]
      calc ⌊np_clip ((inp.pix x y : Rat) * d) 0 255⌋ ≤ ⌊(255 : Rat)⌋ :=
            Int.floor_mono hclip255
        _ = 255 := by norm_num
    · rw [hpix]
      calc ((⌊np_clip ((inp.pix x y : Rat) * d) 0 255⌋ : Int) : Rat) ≤
            np_clip ((inp.pix x y : Rat) * d) 0 255 := Int.floor_le _
        _ ≤ (inp.pix x y : Rat) * d := hclipmul
  · intro hm
    rw [hstep]
    unfold apply_darken
    dsimp only
    rw [if_neg hm]

/-- Witness for C8: a masked channel of value 5 darkened by 1/2 obeys the
floor/bounds description (in particular it is at most half of 5). -/
theorem darken_semantics_witness :
    (mask255.pix 0 0 = 255 →
       (darken_step imgFive mask255 halfQ).pix 0 0 =
         ⌊np_clip ((imgFive.pix 0 0 : Rat) * halfQ) 0 255⌋ ∧
       0 ≤ (darken_step imgFive mask255 halfQ).pix 0 0 ∧
       (darken_step imgFive mask255 halfQ).pix 0 0 ≤ 255 ∧
       ((darken_step imgFive mask255 halfQ).pix 0 0 : Rat) ≤
         (imgFive.pix 0 0 : Rat) * halfQ) ∧
    (mask255.pix 0 0 ≠ 255 →
       (darken_step imgFive mask255 halfQ).pix 0 0 = imgFive.pix 0 0) :=
  darken_semantics imgFive mask255 halfQ 0 0 (by decide) (by decide) (by decide)

/-- Counterexample for C8 as stated: the written masked value for
inpainted channel 5 and darken 1/2 is 2, but "the inpainted channel value
multiplied by darken and clamped to [0,255]" is 5/2 — the uint8 store
truncates, so the claimed equality fails. -/
theorem darken_truncation_cex :
    (darken_step imgFive mask255 (1/2)).pix 0 0 = 2 ∧
    ((2 : Rat) ≠ np_clip ((imgFive.pix 0 0 : Rat) * (1/2)) 0 255) := by
  have hfive : (imgFive.pix 0 0 : Rat) = 5 := by norm_num [imgFive]
  have hclip : np_clip ((imgFive.pix 0 0 : Rat) * (1/2)) 0 255 = 5 / 2 := by
    unfold np_clip
    rw [hfive]
    norm_num
  constructor
  · have hval : (darken_step imgFive mask255 (1/2)).pix 0 0 =
        ⌊np_clip ((imgFive.pix 0 0 : Rat) * (1/2)) 0 255⌋ := by
      unfold darken_step
      rw [if_pos (by norm_num)]
      unfold apply_darken
      dsimp only
      rw [if_pos (show mask255.pix 0 0 = 255 from rfl)]
    rw [hval, hclip]
    norm_num
  · rw [hclip]
    norm_num

lemma pySliceStart_cast (n : Nat) (i : Int) :
    (pySliceStart n i : Int) = if i < 0 then max 0 ((n : Int) + i) else min i (n : Int) := by
  unfold pySliceStart
  split
  · rw [Int.toNat_of_nonneg (le_max_left _ _)]
  · rw [Int.toNat_of_nonneg (by omega)]

@[simp] lemma slice2d_width (img : Img) (y1 y2 x1 x2 : Int) :
    (img.slice2d y1 y2 x1 x2).width = pySliceStart img.width x2 - pySliceStart img.width x1 := rfl

@[simp] lemma slice2d_height (img : Img) (y1 y2 x1 x2 : Int) :
    (img.slice2d y1 y2 x1 x2).height = pySliceStart img.height y2 - pySliceStart img.height y1 := rfl

lemma slice2d_pix (img : Img) (y1 y2 x1 x2 : Int) (x y : Nat) :
    (img.slice2d y1 y2 x1 x2).pix x y =
      img.pix (pySliceStart img.width x1 + x) (pySliceStart img.height y1 + y) := rfl

lemma build_one_spec (img : Img) (w h : Int) (s : SpotDef)
    (hw : w = (img.width : Int)) (hh : h = (img.height : Int))
    (hx : 0 ≤ s.x + (s.radius + 4)) (hy : 0 ≤ s.y + (s.radius + 4)) :
    ((min w (s.x + (s.radius + 4)) ≤ max 0 (s.x - (s.radius + 4)) ∨
      min h (s.y + (s.radius + 4)) ≤ max 0 (s.y - (s.radius + 4))) →
      build_one img w h s = none) ∧
    (max 0 (s.x - (s.radius + 4)) < min w (s.x + (s.radius + 4)) →
     max 0 (s.y - (s.radius + 4)) < min h (s.y + (s.radius + 4)) →
     ∃ t, build_one img w h s = some t ∧
       (t.templ_w : Int) =
         min w (s.x + (s.radius + 4)) - max 0 (s.x - (s.radius + 4)) ∧
       (t.templ_h : Int) =
         min h (s.y + (s.radius + 4)) - max 0 (s.y - (s.radius + 4)) ∧
       t.template.width = t.templ_w ∧ t.template.height = t.templ_h ∧
       (∀ i j : Nat, t.template.pix i j =
         img.pix ((max 0 (s.x - (s.radius + 4))).toNat + i)
                 ((max 0 (s.y - (s.radius + 4))).toNat + j)) ∧
       t.radius = s.radius ∧ t.origin_cx = s.x ∧ t.origin_cy = s.y ∧
       t.last_cx = s.x ∧ t.last_cy = s.y ∧ t.alive = true) := by
  have hw0 : (0 : Int) ≤ w := by omega
  have hh0 : (0 : Int) ≤ h := by omega
  have hxeC : (pySliceStart img.width (min w (s.x + (s.radius + 4))) : Int) =
      min w (s.x + (s.radius + 4)) := by
    rw [pySliceStart_cast, if_neg (by omega)]
    omega
  have hxsC : (pySliceStart img.width (max 0 (s.x - (s.radius + 4))) : Int) =
      min (max 0 (s.x - (s.radius + 4))) w := by
    rw [pySliceStart_cast, if_neg (by omega)]
    omega
  have hyeC : (pySliceStart img.height (min h (s.y + (s.radius + 4))) : Int) =
      min h (s.y + (s.radius + 4)) := by
    rw [pySliceStart_cast, if_neg (by omega)]
    omega
  have hysC : (pySliceStart img.height (max 0 (s.y - (s.radius + 4))) : Int) =
      min (max 0 (s.y - (s.radius + 4))) h := by
    rw [pySliceStart_cast, if_neg (by omega)]
    omega
  constructor
  · intro hor
    unfold build_one
    dsimp only
    rw [if_pos]
    simp only [slice2d_width, slice2d_height, Nat.mul_eq_zero]
    rcases hor with hcase | hcase
    · left
      omega
    · right
      omega
  · intro hbx hby
    have hne : ¬((img.slice2d (max 0 (s.y - (s.radius + 4))) (min h (s.y + (s.radius + 4)))
          (max 0 (s.x - (s.radius + 4))) (min w (s.x + (s.radius + 4)))).width *
        (img.slice2d (max 0 (s.y - (s.radius + 4))) (min h (s.y + (s.radius + 4)))
          (max 0 (s.x - (s.radius + 4))) (min w (s.x + (s.radius + 4)))).height = 0) := by
      simp only [slice2d_width, slice2d_height, Nat.mul_eq_zero]
      intro hc
      rcases hc with hc | hc <;> omega
    have hbuild : build_one img w h s = some
        { radius := s.radius,
          template := img.slice2d (max 0 (s.y - (s.radius + 4))) (min h (s.y + (s.radius + 4)))
            (max 0 (s.x - (s.radius + 4))) (min w (s.x + (s.radius + 4))),
          templ_w := (img.slice2d (max 0 (s.y - (s.radius + 4))) (min h (s.y + (s.radius + 4)))
            (max 0 (s.x - (s.radius + 4))) (min w (s.x + (s.radius + 4)))).width,
          templ_h := (img.slice2d (max 0 (s.y - (s.radius + 4))) (min h (s.y + (s.radius + 4)))
            (max 0 (s.x - (s.radius + 4))) (min w (s.x + (s.radius + 4)))).height,
          origin_cx := s.x, origin_cy := s.y,
          last_cx := s.x, last_cy := s.y, alive := true } := by
      unfold build_one
      dsimp only
      rw [if_neg hne]
    refine ⟨_, hbuild, ?_, ?_, rfl, rfl, fun i j => ?_, rfl, rfl, rfl, rfl, rfl, rfl⟩
    · simp only [slice2d_width]
      omega
    · simp only [slice2d_height]
      omega
    · rw [slice2d_pix]
      congr 1 <;> omega

/-- C5 (amended): with the definition's center not farther than
`radius + 4` left of / above the frame, the template is exactly the
sub-image of the edge-transformed reference over the box
`[x-half, x+half) × [y-half, y+half)` (`half = radius + 4`) clipped to
`[0,width) × [0,height)`; an empty clipped box causes the spot to be
discarded, and every surviving track starts with
`lastCenter = originCenter = (x, y)` and `alive = true`.  (The
restriction is forced: for a center far enough left/above the frame the
clipped box is empty, yet numpy's negative-index slicing keeps the spot
with a non-empty template — see the counterexample.) -/
theorem template_construction (img : Img) (w h : Int) (s : SpotDef)
    (hw : w = (img.width : Int)) (hh : h = (img.height : Int))
    (hx : 0 ≤ s.x + (s.radius + 4)) (hy : 0 ≤ s.y + (s.radius + 4)) :
    ((min w (s.x + (s.radius + 4)) ≤ max 0 (s.x - (s.radius + 4)) ∨
      min h (s.y + (s.radius + 4)) ≤ max 0 (s.y - (s.radius + 4))) →
      build_one img w h s = none) ∧
    (max 0 (s.x - (s.radius + 4)) < min w (s.x + (s.radius + 4)) →
     max 0 (s.y - (s.radius + 4)) < min h (s.y + (s.radius + 4)) →
     ∃ t, build_one img w h s = some t ∧
       (t.templ_w : Int) =
         min w (s.x + (s.radius + 4)) - max 0 (s.x - (s.radius + 4)) ∧
       (t.templ_h : Int) =
         min h (s.y + (s.radius + 4)) - max 0 (s.y - (s.radius + 4)) ∧
       t.template.width = t.templ_w ∧ t.template.height = t.templ_h ∧
       (∀ i j : Nat, t.template.pix i j =
         img.pix ((max 0 (s.x - (s.radius + 4))).toNat + i)
                 ((max 0 (s.y - (s.radius + 4))).toNat + j)) ∧
       t.radius = s.radius ∧ t.origin_cx = s.x ∧ t.origin_cy = s.y ∧
       t.last_cx = s.x ∧ t.last_cy = s.y ∧ t.alive = true) :=
  build_one_spec img w h s hw hh hx hy

/-- Witness for C5: the interior spot (50,50) with radius 10 on a 100×100
frame yields a 28×28 template and the track starts at its origin, alive —
the spec's scenario. -/
theorem template_construction_witness :
    ∃ t, build_one img100 100 100 ⟨50, 50, 10⟩ = some t ∧
      (t.templ_w : Int) = 28 ∧ (t.templ_h : Int) = 28 ∧
      t.last_cx = 50 ∧ t.last_cy = 50 ∧ t.origin_cx = 50 ∧ t.origin_cy = 50 ∧
      t.alive = true := by
  obtain ⟨t, hbuild, htw, hth, -, -, -, -, hocx, hocy, hlcx, hlcy, halive⟩ :=
    (template_construction img100 100 100 ⟨50, 50, 10⟩ (by decide) (by decide)
      (by decide) (by decide)).2 (by decide) (by decide)
  dsimp only at htw hth
  exact ⟨t, hbuild, by omega, by omega, hlcx, hlcy, hocx, hocy, halive⟩

/-- Counterexample for C5 as stated: for the spot (-6,2,r=1) on an 8×4
frame the box `[-11,-1) × [-3,7)` clipped to the frame is empty in x
(`min 8 (-1) = -1 ≤ 0 = max 0 (-11)`), so the claim says the spot is
discarded; but the code's `gray[0:4, 0:-1]` slice wraps the negative
bound and the spot survives with a 7×4 template. -/
theorem template_construction_cex :
    ((build_spot_templates img84 [⟨-6, 2, 1⟩] 8 4).map
       (fun t => (t.templ_w, t.templ_h)) = [(7, 4)]) ∧
    (min (8 : Int) (-6 + (1 + 4)) ≤ max 0 (-6 - (1 + 4))) :=
  ⟨by decide, by decide⟩

/-- C1 (amended): if every processed frame equals the reference frame, a
track whose template box was not clipped by the frame border keeps
`lastCenter = originCenter` through every update of the whole run,
provided the matching step returns the template's true offset inside
each search region (which normalized cross-correlation does whenever the
score-1 location is unique; a weak-match hold also keeps the center).
For border-clipped templates the claim fails — see the counterexample,
where the center jumps to the clipped patch's own center. -/
theorem no_motion_unclipped (img f : Img) (s : SpotDef) (w h ms : Int) (th : Rat)
    (t : SpotTrack)
    (hr : 0 ≤ s.radius) (hms : 0 ≤ ms)
    (hwi : w = (img.width : Int)) (hhi : h = (img.height : Int))
    (hwf : w = (f.width : Int)) (hhf : h = (f.height : Int))
    (hx1 : 0 ≤ s.x - (s.radius + 4)) (hx2 : s.x + (s.radius + 4) ≤ w)
    (hy1 : 0 ≤ s.y - (s.radius + 4)) (hy2 : s.y + (s.radius + 4) ≤ h)
    (ht : build_one img w h s = some t)
    (hmatch : (matchBest (search_roi t f w h ms) t.template).2 =
      ((s.x - (s.radius + 4) - max 0 (s.x - (s.radius + 4) - ms)).toNat,
       (s.y - (s.radius + 4) - max 0 (s.y - (s.radius + 4) - ms)).toNat)) :
    ∀ n : Nat, (fun t' => track_spot_on_frame t' f w h ms th)^[n] t = t := by
  obtain ⟨t', ht', htw, hth2, htpw, htph, hpix, hrad, hocx, hocy, hlcx, hlcy, halive⟩ :=
    (build_one_spec img w h s hwi hhi (by omega) (by omega)).2 (by omega) (by omega)
  rw [ht] at ht'
  injection ht' with ht'
  subst ht'
  have hw0 : (0 : Int) ≤ w := by omega
  have htwv : (t.templ_w : Int) = 2 * (s.radius + 4) := by omega
  have hthv : (t.templ_h : Int) = 2 * (s.radius + 4) := by omega
  have hhw : (t.templ_w : Int) / 2 = s.radius + 4 := by omega
  have hhh : (t.templ_h : Int) / 2 = s.radius + 4 := by omega
  have hrcx1 : (clipRect (search_region_raw t ms) w h).x1 =
      max 0 (s.x - (s.radius + 4) - ms) := by
    show max 0 (t.last_cx - (t.templ_w : Int) / 2 - ms) = _
    rw [hlcx, hhw]
  have hrcy1 : (clipRect (search_region_raw t ms) w h).y1 =
      max 0 (s.y - (s.radius + 4) - ms) := by
    show max 0 (t.last_cy - (t.templ_h : Int) / 2 - ms) = _
    rw [hlcy, hhh]
  have hrcx2 : (clipRect (search_region_raw t ms) w h).x2 =
      min w (s.x + (s.radius + 4) + ms) := by
    show min w (t.last_cx + (t.templ_w : Int) / 2 + ms) = _
    rw [hlcx, hhw]
  have hrcy2 : (clipRect (search_region_raw t ms) w h).y2 =
      min h (s.y + (s.radius + 4) + ms) := by
    show min h (t.last_cy + (t.templ_h : Int) / 2 + ms) = _
    rw [hlcy, hhh]
  have hA : (pySliceStart f.width (min w (s.x + (s.radius + 4) + ms)) : Int) =
      min w (s.x + (s.radius + 4) + ms) := by
    rw [pySliceStart_cast, if_neg (by omega)]
    omega
  have hB : (pySliceStart f.width (max 0 (s.x - (s.radius + 4) - ms)) : Int) =
      max 0 (s.x - (s.radius + 4) - ms) := by
    rw [pySliceStart_cast, if_neg (by omega)]
    omega
  have hC : (pySliceStart f.height (min h (s.y + (s.radius + 4) + ms)) : Int) =
      min h (s.y + (s.radius + 4) + ms) := by
    rw [pySliceStart_cast, if_neg (by omega)]
    omega
  have hD : (pySliceStart f.height (max 0 (s.y - (s.radius + 4) - ms)) : Int) =
      max 0 (s.y - (s.radius + 4) - ms) := by
    rw [pySliceStart_cast, if_neg (by omega)]
    omega
  have hroiW : ((search_roi t f w h ms).width : Int) =
      min w (s.x + (s.radius + 4) + ms) - max 0 (s.x - (s.radius + 4) - ms) := by
    show ((pySliceStart f.width (clipRect (search_region_raw t ms) w h).x2 -
        pySliceStart f.width (clipRect (search_region_raw t ms) w h).x1 : Nat) : Int) = _
    rw [hrcx1, hrcx2]
    omega
  have hroiH : ((search_roi t f w h ms).height : Int) =
      min h (s.y + (s.radius + 4) + ms) - max 0 (s.y - (s.radius + 4) - ms) := by
    show ((pySliceStart f.height (clipRect (search_region_raw t ms) w h).y2 -
        pySliceStart f.height (clipRect (search_region_raw t ms) w h).y1 : Nat) : Int) = _
    rw [hrcy1, hrcy2]
    omega
  have hstep : track_spot_on_frame t f w h ms th = t := by
    unfold track_spot_on_frame
    dsimp only
    rw [if_neg (by simp [halive])]
    rw [if_neg (by omega)]
    split
    · rfl
    · rw [hmatch]
      dsimp only
      have hcx : max 0 (min ((clipRect (search_region_raw t ms) w h).x1 +
          ((s.x - (s.radius + 4) - max 0 (s.x - (s.radius + 4) - ms)).toNat : Int) +
          (t.templ_w : Int) / 2) (w - 1)) = t.last_cx := by
        rw [hrcx1, hlcx]
        omega
      have hcy : max 0 (min ((clipRect (search_region_raw t ms) w h).y1 +
          ((s.y - (s.radius + 4) - max 0 (s.y - (s.radius + 4) - ms)).toNat : Int) +
          (t.templ_h : Int) / 2) (h - 1)) = t.last_cy := by
        rw [hrcy1, hlcy]
        omega
      rw [hcx, hcy]
  intro n
  exact @Function.iterate_fixed SpotTrack (fun t' => track_spot_on_frame t' f w h ms th) t hstep n

/-- Witness for C1: the unclipped track `t12` built from spot (6,6,1) on
`img12` is a fixed point of the tracker when the processed frame equals
the processed reference; after three frames the center is still (6,6). -/
theorem no_motion_unclipped_witness :
    (fun t' => track_spot_on_frame t' img12 12 12 1 halfQ)^[3] t12 = t12 :=
  no_motion_unclipped img12 img12 ⟨6, 6, 1⟩ 12 12 1 halfQ t12
    (by decide) (by decide) (by decide) (by decide) (by decide) (by decide)
    (by decide) (by decide) (by decide) (by decide) rfl (by decide) 3

/-- Counterexample for C1 as stated: the spot (1,5,r=1) on the 8×12
reference `refImgA` builds a border-clipped 6×10 template; running the
tracker on a frame pixel-identical to the reference moves `last_cx` from
the origin 1 to 3, so `lastCenter` does not remain `originCenter` for
clipped templates. -/
theorem no_motion_clipped_cex :
    ((build_one refImgA 8 12 ⟨1, 5, 1⟩).map (fun t =>
       ((track_spot_on_frame t refImgA 8 12 6 halfQ).last_cx, t.origin_cx)) =
      some (3, 1)) ∧ (3 : Int) ≠ 1 :=
  ⟨by decide, by decide⟩

/-- C9 (amended): whenever the pre-clip search region's right and bottom
edges are nonnegative (true in particular whenever `lastCenter` is within
frame bounds), any tracker invocation — accepting or holding — changes
each coordinate of `lastCenter` by at most `maxShift`, even with the
region clipped at the frame border and after the final clamp.  (Without
that proviso the claim fails: a center far outside the frame makes the
slice bound negative, numpy wraps it, and an accepted match can jump
farther than `maxShift` — see the counterexample.) -/
theorem displacement_bound (spot : SpotTrack) (f : Img) (w h ms : Int) (th : Rat)
    (hms : 0 ≤ ms)
    (htw : spot.templ_w = spot.template.width)
    (hth : spot.templ_h = spot.template.height)
    (htw1 : 1 ≤ spot.templ_w) (hth1 : 1 ≤ spot.templ_h)
    (hwf : w = (f.width : Int)) (hhf : h = (f.height : Int))
    (hrx2 : 0 ≤ (search_region_raw spot ms).x2)
    (hry2 : 0 ≤ (search_region_raw spot ms).y2) :
    |(track_spot_on_frame spot f w h ms th).last_cx - spot.last_cx| ≤ ms ∧
    |(track_spot_on_frame spot f w h ms th).last_cy - spot.last_cy| ≤ ms := by
  have habs : ∀ z : Int, z = 0 → |z| ≤ ms := fun z hz => by rw [hz, abs_zero]; exact hms
  have hw0 : (0 : Int) ≤ w := by omega
  have hh0 : (0 : Int) ≤ h := by omega
  have hraw_x1 : (search_region_raw spot ms).x1 =
      spot.last_cx - (spot.templ_w : Int) / 2 - ms := rfl
  have hraw_x2 : (search_region_raw spot ms).x2 =
      spot.last_cx + (spot.templ_w : Int) / 2 + ms := rfl
  have hraw_y1 : (search_region_raw spot ms).y1 =
      spot.last_cy - (spot.templ_h : Int) / 2 - ms := rfl
  have hraw_y2 : (search_region_raw spot ms).y2 =
      spot.last_cy + (spot.templ_h : Int) / 2 + ms := rfl
  have hrc_x1 : (clipRect (search_region_raw spot ms) w h).x1 =
      max 0 ((search_region_raw spot ms).x1) := rfl
  have hrc_x2 : (clipRect (search_region_raw spot ms) w h).x2 =
      min w ((search_region_raw spot ms).x2) := rfl
  have hrc_y1 : (clipRect (search_region_raw spot ms) w h).y1 =
      max 0 ((search_region_raw spot ms).y1) := rfl
  have hrc_y2 : (clipRect (search_region_raw spot ms) w h).y2 =
      min h ((search_region_raw spot ms).y2) := rfl
  have hB2 : (pySliceStart f.width (clipRect (search_region_raw spot ms) w h).x2 : Int) =
      min w ((search_region_raw spot ms).x2) := by
    rw [hrc_x2, pySliceStart_cast, if_neg (by omega)]
    omega
  have hB1 : (pySliceStart f.width (clipRect (search_region_raw spot ms) w h).x1 : Int) =
      min (max 0 ((search_region_raw spot ms).x1)) w := by
    rw [hrc_x1, pySliceStart_cast, if_neg (by omega)]
    omega
  have hC2 : (pySliceStart f.height (clipRect (search_region_raw spot ms) w h).y2 : Int) =
      min h ((search_region_raw spot ms).y2) := by
    rw [hrc_y2, pySliceStart_cast, if_neg (by omega)]
    omega
  have hC1 : (pySliceStart f.height (clipRect (search_region_raw spot ms) w h).y1 : Int) =
      min (max 0 ((search_region_raw spot ms).y1)) h := by
    rw [hrc_y1, pySliceStart_cast, if_neg (by omega)]
    omega
  have hroiWdef : (search_roi spot f w h ms).width =
      pySliceStart f.width (clipRect (search_region_raw spot ms) w h).x2 -
      pySliceStart f.width (clipRect (search_region_raw spot ms) w h).x1 := rfl
  have hroiHdef : (search_roi spot f w h ms).height =
      pySliceStart f.height (clipRect (search_region_raw spot ms) w h).y2 -
      pySliceStart f.height (clipRect (search_region_raw spot ms) w h).y1 := rfl
  have hlocu : (matchBest (search_roi spot f w h ms) spot.template).2.1 <
      (search_roi spot f w h ms).width - spot.templ_w + 1 := by
    rw [htw]
    exact (matchBest_loc (search_roi spot f w h ms) spot.template).1
  have hlocv : (matchBest (search_roi spot f w h ms) spot.template).2.2 <
      (search_roi spot f w h ms).height - spot.templ_h + 1 := by
    rw [hth]
    exact (matchBest_loc (search_roi spot f w h ms) spot.template).2
  unfold track_spot_on_frame
  dsimp only
  split
  · exact ⟨habs _ (sub_self _), habs _ (sub_self _)⟩
  · split
    · exact ⟨habs _ (sub_self _), habs _ (sub_self _)⟩
    · split
      · exact ⟨habs _ (sub_self _), habs _ (sub_self _)⟩
      · rename_i halive hguard hscore
        rw [not_or, not_lt, not_lt] at hguard
        obtain ⟨hg1, hg2⟩ := hguard
        constructor
        · dsimp only
          rw [abs_le]
          constructor <;> omega
        · dsimp only
          rw [abs_le]
          constructor <;> omega

/-- Witness for C9: tracking the in-bounds track `t12` on `img12` with
`maxShift = 1` moves each coordinate by at most 1. -/
theorem displacement_bound_witness :
    |(track_spot_on_frame t12 img12 12 12 1 halfQ).last_cx - t12.last_cx| ≤ 1 ∧
    |(track_spot_on_frame t12 img12 12 12 1 halfQ).last_cy - t12.last_cy| ≤ 1 :=
  displacement_bound t12 img12 12 12 1 halfQ (by decide) (by decide) (by decide)
    (by decide) (by decide) (by decide) (by decide) (by decide) (by decide)

/-- Counterexample for C9 as stated: the track built from spot (-3,2,1)
on the 4×4 `refImgB` has `last_cx = -3`; with `maxShift = 1` the raw
region's right edge is -1, numpy wraps the negative slice bound, the
match is accepted at the template's true location and `last_cx` becomes
1 — a displacement of 4 > 1. -/
theorem displacement_bound_cex :
    ((build_one refImgB 4 4 ⟨-3, 2, 1⟩).map (fun t =>
       ((track_spot_on_frame t refImgB 4 4 1 halfQ).last_cx, t.last_cx)) =
      some (1, -3)) ∧ ¬ (|(1 : Int) - (-3)| ≤ 1) :=
  ⟨by decide, by decide⟩
